import Mathlib

/-!
Verification of the sliding-window-with-decay conversation history
(src/11-sliding-window-with-decay/sliding-window-with-decay.py).

The Python class SlidingWindowWithDecay keeps an ordered buffer of chat
messages together with a running token estimate, compressing old messages
into a single System summary message when the estimate would exceed a
configured limit.  We embed the class state as a structure and each method
as a pure function on that state.  Machine integers are modelled as Int
(Python integers are unbounded, so no wraparound is needed); the unused
float configuration field for the summary length target is omitted since
no method reads it.
-/

/-- Message roles, mirroring the AuthorRole values used by the source. -/
inductive Role where
  | user
  | assistant
  | system
deriving DecidableEq, Repr

/-- A chat message: a role together with its textual content,
mirroring ChatMessageContent as used by the source. -/
structure Msg where
  role : Role
  content : String
deriving DecidableEq, Repr

/-- State of a SlidingWindowWithDecay instance.  The field kernel records
whether an LLM kernel object was supplied (the code only ever tests its
truthiness).  The list field named with a leading underscore mirrors the
inherited ChatHistory message buffer. -/
structure SlidingWindowWithDecay where
  max_token_limit : Int
  recent_message_count : Int
  kernel : Bool
  summarized_sections : List String
  _messages : List Msg
  estimated_token_count : Int
deriving DecidableEq, Repr

/-- Source method: returns 0 for empty text, otherwise len(text) // 4 + 1
(Python floor division). -/
def _estimate_tokens (text : String) : Nat :=
  if text = "" then 0 else text.length / 4 + 1

/-- One user or assistant exchange accumulated by the rule-based
summarizer (the dict with keys user and assistant in the source). -/
structure Exchange where
  user : String
  assistant : String
deriving DecidableEq, Repr

/-- One iteration of the message loop in the source summarizer: a user
message flushes the pending exchange when its assistant half is non-empty
and starts a new one; an assistant message fills the assistant half;
any other role is skipped. -/
def stepExchange (st : List Exchange × Exchange) (msg : Msg) :
    List Exchange × Exchange :=
  match msg.role with
  | Role.user =>
      if st.2.assistant ≠ "" then
        (st.1 ++ [st.2], { user := msg.content, assistant := "" })
      else
        (st.1, { user := msg.content, assistant := st.2.assistant })
  | Role.assistant => (st.1, { st.2 with assistant := msg.content })
  | Role.system => st

/-- Clause formatting in the source summarizer: when the text is longer
than 100 characters, keep the part before the first period and append an
ellipsis; otherwise emit the text unchanged. -/
def truncClause (s : String) : String :=
  if s.length > 100 then
    String.mk (s.data.takeWhile (fun c => c != '.')) ++ "..."
  else s

/-- The numbered line pairs emitted for the accumulated exchanges,
numbering from the given starting index (the source enumerates from 1). -/
def formatExchanges : Nat → List Exchange → List String
  | _, [] => []
  | i, e :: rest =>
      (toString i ++ ". User asked: " ++ truncClause e.user)
        :: ("   Assistant responded: " ++ truncClause e.assistant)
        :: formatExchanges (i + 1) rest

/-- The exchange-extraction phase of the rule-based summarizer: fold the
messages into exchanges, then append the final pending exchange only when
both of its halves are non-empty. -/
def exchangesOf (messages : List Msg) : List Exchange :=
  let p := messages.foldl stepExchange ([], { user := "", assistant := "" })
  if p.2.user ≠ "" ∧ p.2.assistant ≠ "" then p.1 ++ [p.2] else p.1

/-- Source method: the rule-based summary.  Extracts the exchanges and
joins the header with the numbered lines by newlines. -/
def _create_rule_based_summary (messages : List Msg) : String :=
  String.intercalate "\n"
    ("CONVERSATION HISTORY SUMMARY:" :: formatExchanges 1 (exchangesOf messages))

/-- Source method: the LLM summarization hook is a placeholder that falls
back to the rule-based summary. -/
def _create_llm_summary (messages : List Msg) : String :=
  _create_rule_based_summary messages

/-- Source method: dispatches on the presence of a kernel. -/
def _create_summary (kernel : Bool) (messages : List Msg) : String :=
  if kernel then _create_llm_summary messages
  else _create_rule_based_summary messages

/-- Sum of the token estimates of the contents of a list of messages
(the generator-expression sum in the compression method; every modelled
message has a content attribute). -/
def tokenSum (ms : List Msg) : Int :=
  (ms.map (fun m => (_estimate_tokens m.content : Int))).sum

/-- Source method: compress the history.  Returns unchanged when the
buffer holds at most recent_message_count * 2 messages, or when the
prefix to summarize is empty; otherwise replaces that prefix with a
single System summary message and adjusts the token estimate. -/
def _compress_history (s : SlidingWindowWithDecay) : SlidingWindowWithDecay :=
  if (s._messages.length : Int) ≤ s.recent_message_count * 2 then s
  else
    let preserve_start :=
      (max 0 ((s._messages.length : Int) - s.recent_message_count * 2)).toNat
    let to_summarize := s._messages.take preserve_start
    let to_keep := s._messages.drop preserve_start
    if to_summarize = [] then s
    else
      let summary := _create_summary s.kernel to_summarize
      let old_tokens := tokenSum to_summarize
      let summary_tokens := (_estimate_tokens summary : Int)
      { s with
        _messages := { role := Role.system, content := summary } :: to_keep,
        estimated_token_count :=
          s.estimated_token_count - old_tokens + summary_tokens }

/-- Source method: estimate the new message, compress first when the
projected total exceeds the limit, then append the user message and add
its tokens to the running estimate. -/
def add_user_message (s : SlidingWindowWithDecay) (message : String) :
    SlidingWindowWithDecay :=
  let message_tokens := (_estimate_tokens message : Int)
  let s1 :=
    if s.estimated_token_count + message_tokens > s.max_token_limit then
      _compress_history s
    else s
  { s1 with
    _messages := s1._messages ++ [{ role := Role.user, content := message }],
    estimated_token_count := s1.estimated_token_count + message_tokens }

/-- Source method: same as the user variant but appends with the
assistant role. -/
def add_assistant_message (s : SlidingWindowWithDecay) (message : String) :
    SlidingWindowWithDecay :=
  let message_tokens := (_estimate_tokens message : Int)
  let s1 :=
    if s.estimated_token_count + message_tokens > s.max_token_limit then
      _compress_history s
    else s
  { s1 with
    _messages :=
      s1._messages ++ [{ role := Role.assistant, content := message }],
    estimated_token_count := s1.estimated_token_count + message_tokens }

/-- The state produced by the constructor body: stores the configuration
as given, with an empty buffer and a zero token estimate. -/
def initState (limit rc : Int) (k : Bool) : SlidingWindowWithDecay :=
  { max_token_limit := limit
    recent_message_count := rc
    kernel := k
    summarized_sections := []
    _messages := []
    estimated_token_count := 0 }

/-- The constructor as an operation that may in principle signal a
configuration error.  The source constructor only assigns fields and
never raises, so it always returns the initial state. -/
def construct (limit rc : Int) (k : Bool) :
    Except String SlidingWindowWithDecay :=
  Except.ok (initState limit rc k)

/-- Public mutating operations of the class. -/
inductive Op where
  | userTurn (m : String)
  | assistantTurn (m : String)
  | compactOp
deriving DecidableEq, Repr

/-- Apply one operation to a state. -/
def applyOp (s : SlidingWindowWithDecay) : Op → SlidingWindowWithDecay
  | Op.userTurn m => add_user_message s m
  | Op.assistantTurn m => add_assistant_message s m
  | Op.compactOp => _compress_history s

/-- Run a sequence of operations from a state. -/
def runOps (s : SlidingWindowWithDecay) (ops : List Op) :
    SlidingWindowWithDecay :=
  ops.foldl applyOp s

/-! ## Helper lemmas -/

/-- A non-empty string has non-zero length. -/
theorem length_ne_zero_of_ne_empty (s : String) (h : s ≠ "") :
    s.length ≠ 0 := by
  intro hl
  apply h
  cases s with
  | mk data =>
    have hd : data = [] := by
      simpa [String.length] using hl
    subst hd
    rfl

/-! ## C3: token estimator formula -/

/-- C3 counterexample: the claim says the estimator returns the ceiling of
length / 4 (a non-empty length-4 input would give 1), but the source
returns length // 4 + 1, which is 2 on the four-character input abcd. -/
theorem c3_counterexample :
    _estimate_tokens "abcd" ≠ ("abcd".length + 3) / 4 := by decide

/-- C3 amended: the estimator is total, non-negative, returns 0 for empty
text, and for non-empty text returns length // 4 + 1, which equals the
ceiling of length / 4 except when the length is a positive multiple of 4,
where it is one more than the ceiling. -/
theorem c3_amended (s : String) :
    _estimate_tokens s =
      if s.length = 0 then 0
      else if s.length % 4 = 0 then (s.length + 3) / 4 + 1
      else (s.length + 3) / 4 := by
  unfold _estimate_tokens
  by_cases h : s = ""
  · subst h; simp
  · rw [if_neg h, if_neg (length_ne_zero_of_ne_empty s h)]
    by_cases h4 : s.length % 4 = 0
    · rw [if_pos h4]; omega
    · rw [if_neg h4]; omega

/-! ## C10: the two summarization paths coincide -/

/-- C10: for every message list and every kernel configuration, the
summary dispatcher returns exactly the rule-based summary, because the
LLM path is a stub that falls back to the rule-based summarizer. -/
theorem c10_summary_paths_equal (kernel : Bool) (messages : List Msg) :
    _create_summary kernel messages = _create_rule_based_summary messages := by
  cases kernel <;> rfl

/-! ## C4: construction performs no validation -/

/-- C4 counterexample: the claim says non-positive max_token_limit and
negative recent_message_count make construction fail, but the source
constructor only assigns fields: it succeeds on limit 0 and on
recent count -1. -/
theorem c4_counterexample :
    construct 0 5 false = Except.ok (initState 0 5 false) ∧
      construct 4000 (-1) false = Except.ok (initState 4000 (-1) false) :=
  ⟨rfl, rfl⟩

/-- C4 amended: construction performs no validation: it accepts every
max_token_limit and recent_message_count, including non-positive and
negative values, storing them as given with an empty buffer and a zero
token estimate, and it never fails. -/
theorem c4_amended (limit rc : Int) (k : Bool) :
    ∃ s, construct limit rc k = Except.ok s ∧
      s.max_token_limit = limit ∧ s.recent_message_count = rc ∧
      s._messages = [] ∧ s.estimated_token_count = 0 :=
  ⟨initState limit rc k, rfl, rfl, rfl, rfl, rfl⟩

/-! ## C8: add operations always append, compressing exactly on overflow -/

/-- C8: adding a message always succeeds and always appends the new turn
at the buffer tail, with compression running first exactly when the
current estimate plus the new tokens exceeds the limit; the running
estimate grows by the new tokens on top of the (possibly compressed)
state. -/
theorem c8_add_always_appends (s : SlidingWindowWithDecay) (m : String) :
    ((add_user_message s m)._messages =
        (if s.estimated_token_count + (_estimate_tokens m : Int) >
            s.max_token_limit
         then _compress_history s else s)._messages ++
          [{ role := Role.user, content := m }]
      ∧ (add_user_message s m)._messages.getLast? =
          some { role := Role.user, content := m }
      ∧ (add_user_message s m).estimated_token_count =
          (if s.estimated_token_count + (_estimate_tokens m : Int) >
              s.max_token_limit
           then _compress_history s else s).estimated_token_count +
            (_estimate_tokens m : Int))
    ∧ ((add_assistant_message s m)._messages =
        (if s.estimated_token_count + (_estimate_tokens m : Int) >
            s.max_token_limit
         then _compress_history s else s)._messages ++
          [{ role := Role.assistant, content := m }]
      ∧ (add_assistant_message s m)._messages.getLast? =
          some { role := Role.assistant, content := m }
      ∧ (add_assistant_message s m).estimated_token_count =
          (if s.estimated_token_count + (_estimate_tokens m : Int) >
              s.max_token_limit
           then _compress_history s else s).estimated_token_count +
            (_estimate_tokens m : Int)) := by
  unfold add_user_message add_assistant_message
  by_cases h : s.estimated_token_count + (_estimate_tokens m : Int) >
      s.max_token_limit <;>
    simp [h, List.getLast?_concat]

/-! ## C1: clause truncation in the rule-based summary -/

/-- C1 counterexample: the claim says each clause is truncated at the
first sentence terminator or at 100 characters (whichever comes first)
and that the worked example yields the truncated lines, but the source
truncates only when the clause exceeds 100 characters: on the worked
example, both messages are short and are emitted in full. -/
theorem c1_counterexample :
    _create_rule_based_summary
        [{ role := Role.user, content := "Hi there. How are you?" },
         { role := Role.assistant, content := "I am fine. Thanks!" }] ≠
      "CONVERSATION HISTORY SUMMARY:\n1. User asked: Hi there...\n   Assistant responded: I am fine..." := by
  decide

/-- C1 amended: each emitted clause is the input unchanged when its
length is at most 100 characters; only when the length exceeds 100 is the
clause the prefix before the first period with an ellipsis appended (the
truncClause rule).  On the worked example both messages are at most 100
characters long, so the summary emits them verbatim under the header. -/
theorem c1_amended :
    (∀ u a : String, u ≠ "" → a ≠ "" →
      _create_rule_based_summary
          [{ role := Role.user, content := u },
           { role := Role.assistant, content := a }] =
        String.intercalate "\n"
          ["CONVERSATION HISTORY SUMMARY:",
           "1. User asked: " ++ truncClause u,
           "   Assistant responded: " ++ truncClause a])
    ∧ _create_rule_based_summary
          [{ role := Role.user, content := "Hi there. How are you?" },
           { role := Role.assistant, content := "I am fine. Thanks!" }] =
        "CONVERSATION HISTORY SUMMARY:\n1. User asked: Hi there. How are you?\n   Assistant responded: I am fine. Thanks!" := by
  constructor
  · intro u a hu ha
    simp [_create_rule_based_summary, exchangesOf, stepExchange,
      formatExchanges, hu, ha]
    rw [show (toString (1:Nat) ++ ". User asked: " : String) =
      "1. User asked: " by decide]
  · decide

/-- C1 amended witness: the amended clause rule applied at a concrete
complete exchange. -/
theorem c1_amended_witness :
    _create_rule_based_summary
        [{ role := Role.user, content := "Hello. Bye" },
         { role := Role.assistant, content := "Sure. Done" }] =
      String.intercalate "\n"
        ["CONVERSATION HISTORY SUMMARY:",
         "1. User asked: " ++ truncClause "Hello. Bye",
         "   Assistant responded: " ++ truncClause "Sure. Done"] :=
  c1_amended.1 "Hello. Bye" "Sure. Done" (by decide) (by decide)

/-! ## C9: a dangling trailing user turn is dropped -/

/-- Every exchange accumulated by the fold has a non-empty assistant
half, provided all exchanges already accumulated do. -/
theorem foldExchanges_assistant_ne_empty (msgs : List Msg) :
    ∀ st : List Exchange × Exchange,
      (∀ e ∈ st.1, e.assistant ≠ "") →
      ∀ e ∈ (msgs.foldl stepExchange st).1, e.assistant ≠ "" := by
  induction msgs with
  | nil => intro st hacc; simpa using hacc
  | cons m rest ih =>
      intro st hacc
      rw [List.foldl_cons]
      apply ih
      unfold stepExchange
      cases m.role with
      | user =>
          by_cases hca : st.2.assistant = ""
          · simpa [hca] using hacc
          · simp only [hca, ne_eq, not_false_iff, if_true]
            intro e he
            rcases List.mem_append.mp he with h1 | h2
            · exact hacc e h1
            · rw [List.mem_singleton.mp h2]; exact hca
      | assistant => simpa using hacc
      | system => simpa using hacc

/-- Every exchange emitted by the rule-based summarizer has a non-empty
assistant half: an exchange with an empty assistant half never reaches
the output. -/
theorem exchangesOf_assistant_ne_empty (msgs : List Msg) :
    ∀ e ∈ exchangesOf msgs, e.assistant ≠ "" := by
  unfold exchangesOf
  by_cases h :
      (msgs.foldl stepExchange
        ([], { user := "", assistant := "" })).2.user ≠ "" ∧
      (msgs.foldl stepExchange
        ([], { user := "", assistant := "" })).2.assistant ≠ ""
  · rw [if_pos h]
    intro e he
    rcases List.mem_append.mp he with h1 | h2
    · exact foldExchanges_assistant_ne_empty msgs _ (by simp) e h1
    · rw [List.mem_singleton.mp h2]; exact h.2
  · rw [if_neg h]
    exact foldExchanges_assistant_ne_empty msgs _ (by simp)

/-- C9: the summary of a sequence ending in a dangling user turn does not
depend on the content of that turn (so the trailing incomplete exchange
contributes nothing to the returned text), and no emitted exchange ever
has an empty assistant half (so no summary line is emitted for the
dangling exchange itself). -/
theorem c9_dangling_user_dropped :
    (∀ (ms : List Msg) (u v : String),
      _create_rule_based_summary
          (ms ++ [{ role := Role.user, content := u }]) =
        _create_rule_based_summary
          (ms ++ [{ role := Role.user, content := v }]))
    ∧ (∀ (msgs : List Msg), ∀ e ∈ exchangesOf msgs, e.assistant ≠ "") := by
  constructor
  · intro ms u v
    unfold _create_rule_based_summary exchangesOf
    rw [List.foldl_append, List.foldl_append]
    by_cases h :
        (ms.foldl stepExchange
          ([], { user := "", assistant := "" })).2.assistant = "" <;>
      simp [stepExchange, h]
  · exact exchangesOf_assistant_ne_empty

/-- C9 witness: the independence half applied at a concrete history, and
the non-empty-assistant half applied at a concrete emitted exchange. -/
theorem c9_dangling_user_dropped_witness :
    _create_rule_based_summary
        ([{ role := Role.user, content := "q" },
          { role := Role.assistant, content := "r" }] ++
          [{ role := Role.user, content := "dangling one" }]) =
      _create_rule_based_summary
        ([{ role := Role.user, content := "q" },
          { role := Role.assistant, content := "r" }] ++
          [{ role := Role.user, content := "dangling two" }])
    ∧ ({ user := "q", assistant := "r" } : Exchange).assistant ≠ "" :=
  ⟨c9_dangling_user_dropped.1
      [{ role := Role.user, content := "q" },
       { role := Role.assistant, content := "r" }] "dangling one"
      "dangling two",
   c9_dangling_user_dropped.2
      [{ role := Role.user, content := "q" },
       { role := Role.assistant, content := "r" }]
      { user := "q", assistant := "r" } (by decide)⟩

/-! ## Compression helpers -/

/-- Clamping at zero before toNat does not change the result. -/
theorem toNat_max_zero (x : Int) : (max 0 x).toNat = x.toNat := by
  rcases le_total 0 x with h | h
  · rw [max_eq_right h]
  · rw [max_eq_left h]
    simp [Int.toNat_of_nonpos h]

/-- The split boundary index computed by the compression method. -/
def preserveStart (s : SlidingWindowWithDecay) : Nat :=
  (max 0 ((s._messages.length : Int) - s.recent_message_count * 2)).toNat

/-- Characterization of the compression method with its local bindings
inlined, convenient for case splits. -/
theorem compress_eq (s : SlidingWindowWithDecay) :
    _compress_history s =
      if (s._messages.length : Int) ≤ s.recent_message_count * 2 then s
      else if s._messages.take (preserveStart s) = [] then s
      else
        { s with
          _messages := { role := Role.system,
                         content := _create_summary s.kernel
                           (s._messages.take (preserveStart s)) } ::
            s._messages.drop (preserveStart s),
          estimated_token_count := s.estimated_token_count
            - tokenSum (s._messages.take (preserveStart s))
            + (_estimate_tokens (_create_summary s.kernel
                (s._messages.take (preserveStart s))) : Int) } := rfl

/-- Token sums add over concatenation. -/
theorem tokenSum_append (a b : List Msg) :
    tokenSum (a ++ b) = tokenSum a + tokenSum b := by
  simp [tokenSum]

/-- Compression preserves the running-estimate consistency invariant. -/
theorem compress_preserves_tokenSum (s : SlidingWindowWithDecay)
    (h : s.estimated_token_count = tokenSum s._messages) :
    (_compress_history s).estimated_token_count =
      tokenSum (_compress_history s)._messages := by
  rw [compress_eq]
  split_ifs with h1 h2
  · exact h
  · exact h
  · have hsplit : tokenSum (s._messages.take (preserveStart s)) +
        tokenSum (s._messages.drop (preserveStart s)) =
          tokenSum s._messages := by
      rw [← tokenSum_append, List.take_append_drop]
    simp only [tokenSum, List.map_cons, List.sum_cons]
    simp only [tokenSum] at hsplit h
    omega

/-- Adding a user message preserves the consistency invariant. -/
theorem add_user_preserves_tokenSum (s : SlidingWindowWithDecay)
    (m : String)
    (h : s.estimated_token_count = tokenSum s._messages) :
    (add_user_message s m).estimated_token_count =
      tokenSum (add_user_message s m)._messages := by
  unfold add_user_message
  by_cases hc : s.estimated_token_count + (_estimate_tokens m : Int) >
      s.max_token_limit
  · simp only [if_pos hc, tokenSum_append]
    have := compress_preserves_tokenSum s h
    simp only [tokenSum, List.map_cons, List.map_nil, List.sum_cons,
      List.sum_nil] at this ⊢
    omega
  · simp only [if_neg hc, tokenSum_append]
    simp only [tokenSum, List.map_cons, List.map_nil, List.sum_cons,
      List.sum_nil] at h ⊢
    omega

/-- Adding an assistant message preserves the consistency invariant. -/
theorem add_assistant_preserves_tokenSum (s : SlidingWindowWithDecay)
    (m : String)
    (h : s.estimated_token_count = tokenSum s._messages) :
    (add_assistant_message s m).estimated_token_count =
      tokenSum (add_assistant_message s m)._messages := by
  unfold add_assistant_message
  by_cases hc : s.estimated_token_count + (_estimate_tokens m : Int) >
      s.max_token_limit
  · simp only [if_pos hc, tokenSum_append]
    have := compress_preserves_tokenSum s h
    simp only [tokenSum, List.map_cons, List.map_nil, List.sum_cons,
      List.sum_nil] at this ⊢
    omega
  · simp only [if_neg hc, tokenSum_append]
    simp only [tokenSum, List.map_cons, List.map_nil, List.sum_cons,
      List.sum_nil] at h ⊢
    omega

/-- Running any sequence of public operations preserves the consistency
invariant. -/
theorem runOps_preserves_tokenSum (ops : List Op) :
    ∀ s : SlidingWindowWithDecay,
      s.estimated_token_count = tokenSum s._messages →
      (runOps s ops).estimated_token_count =
        tokenSum (runOps s ops)._messages := by
  induction ops with
  | nil => intro s h; exact h
  | cons op rest ih =>
      intro s h
      show (runOps (applyOp s op) rest).estimated_token_count =
        tokenSum (runOps (applyOp s op) rest)._messages
      apply ih
      cases op with
      | userTurn m => exact add_user_preserves_tokenSum s m h
      | assistantTurn m => exact add_assistant_preserves_tokenSum s m h
      | compactOp => exact compress_preserves_tokenSum s h

/-! ## C2: the running token estimate matches the buffer -/

/-- C2: starting from a freshly constructed history, after every sequence
of add and compact operations the running estimate equals the sum of the
token estimates of all buffered message contents; moreover compression
preserves this equality from any state satisfying it. -/
theorem c2_token_count_invariant :
    (∀ (limit rc : Int) (k : Bool) (ops : List Op),
      (runOps (initState limit rc k) ops).estimated_token_count =
        tokenSum (runOps (initState limit rc k) ops)._messages)
    ∧ (∀ s : SlidingWindowWithDecay,
        s.estimated_token_count = tokenSum s._messages →
        (_compress_history s).estimated_token_count =
          tokenSum (_compress_history s)._messages) := by
  constructor
  · intro limit rc k ops
    exact runOps_preserves_tokenSum ops (initState limit rc k) rfl
  · exact compress_preserves_tokenSum

/-- Concrete single-message state used to witness the C2 preservation
half. -/
def exampleState2 : SlidingWindowWithDecay :=
  { max_token_limit := 100, recent_message_count := 1, kernel := false,
    summarized_sections := [],
    _messages := [{ role := Role.user, content := "hi" }],
    estimated_token_count := 1 }

/-- C2 witness: the preservation half applied at a concrete consistent
state. -/
theorem c2_token_count_invariant_witness :
    (_compress_history exampleState2).estimated_token_count =
      tokenSum (_compress_history exampleState2)._messages :=
  c2_token_count_invariant.2 exampleState2 (by decide)

/-! ## C5: a prior head summary is re-folded, one summary survives -/

/-- C5: when the buffer head is a System summary turn, no other System
turn is present, and the buffer is long enough to compact, the head turn
belongs to the summarized prefix, and after compression the buffer holds
exactly one System turn, sitting at the head. -/
theorem c5_summary_refolded_single_head (s : SlidingWindowWithDecay)
    (m0 : Msg) (rest : List Msg)
    (hm : s._messages = m0 :: rest)
    (hrole : m0.role = Role.system)
    (hrest : ∀ m ∈ rest, m.role ≠ Role.system)
    (hlen : s.recent_message_count * 2 < (s._messages.length : Int)) :
    m0 ∈ s._messages.take (preserveStart s)
    ∧ ((_compress_history s)._messages.head?).map Msg.role =
        some Role.system
    ∧ (_compress_history s)._messages.countP
        (fun m => m.role == Role.system) = 1 := by
  obtain ⟨q, hq⟩ : ∃ q, preserveStart s = q + 1 := by
    refine ⟨preserveStart s - 1, ?_⟩
    unfold preserveStart
    rw [toNat_max_zero]
    omega
  have hmem : m0 ∈ s._messages.take (preserveStart s) := by
    rw [hm, hq, List.take_succ_cons]
    exact List.mem_cons_self _ _
  refine ⟨hmem, ?_, ?_⟩
  · rw [compress_eq, if_neg (not_le.mpr hlen),
      if_neg (by rw [hm, hq, List.take_succ_cons]; exact List.cons_ne_nil _ _)]
    rfl
  · rw [compress_eq, if_neg (not_le.mpr hlen),
      if_neg (by rw [hm, hq, List.take_succ_cons]; exact List.cons_ne_nil _ _)]
    simp only [List.countP_cons]
    rw [List.countP_eq_zero.mpr]
    · simp
    · intro m hmmem
      rw [hm, hq, List.drop_succ_cons] at hmmem
      have : m ∈ rest := List.mem_of_mem_drop hmmem
      simp [hrest m this]

/-- Concrete state whose head is a prior summary turn, used to witness
C5. -/
def exampleState5 : SlidingWindowWithDecay :=
  { max_token_limit := 50, recent_message_count := 1, kernel := false,
    summarized_sections := [],
    _messages := [{ role := Role.system, content := "old summary" },
                  { role := Role.user, content := "q1" },
                  { role := Role.assistant, content := "r1" },
                  { role := Role.user, content := "q2" },
                  { role := Role.assistant, content := "r2" }],
    estimated_token_count := 20 }

/-- C5 witness: the theorem applied at a concrete buffer that starts with
a prior summary turn. -/
theorem c5_summary_refolded_single_head_witness :
    ({ role := Role.system, content := "old summary" } : Msg) ∈
        exampleState5._messages.take (preserveStart exampleState5)
    ∧ ((_compress_history exampleState5)._messages.head?).map Msg.role =
        some Role.system
    ∧ (_compress_history exampleState5)._messages.countP
        (fun m => m.role == Role.system) = 1 :=
  c5_summary_refolded_single_head exampleState5
    { role := Role.system, content := "old summary" }
    [{ role := Role.user, content := "q1" },
     { role := Role.assistant, content := "r1" },
     { role := Role.user, content := "q2" },
     { role := Role.assistant, content := "r2" }]
    rfl rfl (by decide) (by decide)

/-! ## C6: the recent window is never touched by compression -/

/-- C6: for every state with a non-negative recent exchange count,
compression leaves the last recent_message_count * 2 turns unchanged and
in order as the buffer tail. -/
theorem c6_recent_preserved (s : SlidingWindowWithDecay)
    (hrc : 0 ≤ s.recent_message_count) :
    (_compress_history s)._messages.drop
        ((_compress_history s)._messages.length -
          (s.recent_message_count * 2).toNat) =
      s._messages.drop
        (s._messages.length - (s.recent_message_count * 2).toNat) := by
  rw [compress_eq]
  split_ifs with h1 h2
  · rfl
  · rfl
  · have hklen : (s.recent_message_count * 2).toNat <
        s._messages.length := by
      omega
    have hps : preserveStart s =
        s._messages.length - (s.recent_message_count * 2).toNat := by
      unfold preserveStart
      rw [toNat_max_zero]
      omega
    simp only [List.length_cons, List.length_drop, hps]
    rw [show s._messages.length - (s._messages.length -
        (s.recent_message_count * 2).toNat) + 1 -
        (s.recent_message_count * 2).toNat = 1 from by omega]
    rw [List.drop_one, List.tail_cons]

/-- Concrete two-exchange state used to witness C6. -/
def exampleState6 : SlidingWindowWithDecay :=
  { max_token_limit := 10, recent_message_count := 1, kernel := false,
    summarized_sections := [],
    _messages := [{ role := Role.user, content := "first question" },
                  { role := Role.assistant, content := "first answer" },
                  { role := Role.user, content := "second question" },
                  { role := Role.assistant, content := "second answer" }],
    estimated_token_count := 16 }

/-- C6 witness: the theorem applied at a concrete state. -/
theorem c6_recent_preserved_witness :
    (_compress_history exampleState6)._messages.drop
        ((_compress_history exampleState6)._messages.length -
          (exampleState6.recent_message_count * 2).toNat) =
      exampleState6._messages.drop
        (exampleState6._messages.length -
          (exampleState6.recent_message_count * 2).toNat) :=
  c6_recent_preserved exampleState6 (by decide)

/-! ## C7: compaction is not idempotent after a real compression -/

/-- Concrete two-exchange state on which two successive compressions
differ, refuting the idempotence claim. -/
def exampleState7 : SlidingWindowWithDecay :=
  { max_token_limit := 100, recent_message_count := 1, kernel := false,
    summarized_sections := [],
    _messages := [{ role := Role.user, content := "a" },
                  { role := Role.assistant, content := "b" },
                  { role := Role.user, content := "c" },
                  { role := Role.assistant, content := "d" }],
    estimated_token_count := 4 }

/-- C7 counterexample: after a compression that summarized a non-empty
prefix the buffer has length recent_message_count * 2 + 1, which is above
the no-op threshold, so a second compression is not a no-op: it replaces
the summary turn with a header-only summary and changes the estimate. -/
theorem c7_counterexample :
    _compress_history (_compress_history exampleState7) ≠
      _compress_history exampleState7 := by decide

/-- C7 amended: compression is a no-op exactly on the short-buffer
condition the claim cites: whenever the buffer holds at most
recent_message_count * 2 turns, compression returns the state unchanged.
A second compact call right after a compression that summarized a
non-empty prefix does not meet this condition (the buffer then holds
recent_message_count * 2 + 1 turns) and re-folds the fresh summary turn
into a header-only summary, so compact is not idempotent in that case. -/
theorem c7_amended (s : SlidingWindowWithDecay)
    (h : (s._messages.length : Int) ≤ s.recent_message_count * 2) :
    _compress_history s = s := by
  rw [compress_eq, if_pos h]

/-- Concrete short-buffer state used to witness the amended C7. -/
def exampleState7short : SlidingWindowWithDecay :=
  { max_token_limit := 100, recent_message_count := 5, kernel := false,
    summarized_sections := [],
    _messages := [{ role := Role.user, content := "only one" }],
    estimated_token_count := 3 }

/-- C7 amended witness: the no-op condition applied at a concrete short
buffer. -/
theorem c7_amended_witness :
    _compress_history exampleState7short = exampleState7short :=
  c7_amended exampleState7short (by decide)
